import Mathlib

/-!
Verification of the road-network graph simplification in
`utils/get_osm_data.py` (`merge_edges`, `simplify_graph`).

The source operates on a `networkx.MultiDiGraph`: nodes carry `x`/`y`
coordinates, directed edges carry attribute dictionaries (`name`, `lanes`,
`length`, `geometry`), and several parallel edges may exist for the same
ordered pair (edge keys `0, 1, ...` in insertion order).

Shallow embedding choices:
* a graph is a pair of insertion-ordered lists (nodes with coordinates,
  edges with data); parallel edges are repeated `(u, v, _)` entries, and the
  networkx edge key `0` of a pair `(u, v)` is the first `(u, v)` entry;
* coordinates are exact integer pairs (the source compares coordinate
  tuples with `==` and `in`, never with a tolerance), and lengths are exact
  integers: the claims about lengths concern the exact summation the source
  performs, not floating-point rounding;
* a `lanes` attribute may be absent (`Option Nat`); `name`, `length` and
  `geometry` are always present (ingestion sets them on every edge);
* Python in-place mutation of edge dictionaries (`setdefault`) is modelled
  by threading the updated graph value through `merge_edges`;
* the uncaught `TypeError` raised by `remove_edges_from` on a `None` entry,
  and the `ValueError` of `max` on an empty component list, are modelled
  with `Except Unit`.
-/

/-- Attribute dictionary of one directed edge: `name`, optional `lanes`,
`length`, `geometry` (ordered polyline coordinates). -/
structure EdgeData where
  name : String
  lanes : Option Nat
  length : Int
  geometry : List (Int × Int)
deriving DecidableEq

/-- A multi-digraph: insertion-ordered node list (id, x, y) and
insertion-ordered edge list (source, target, data).  Parallel edges are
repeated `(u, v, _)` entries. -/
structure Graph where
  nodes : List (Nat × Int × Int)
  edges : List (Nat × Nat × EdgeData)
deriving DecidableEq

deriving instance DecidableEq for Except

/-- Number of nodes, `len(graph.nodes)`. -/
def nodeCount (g : Graph) : Nat := g.nodes.length

/-- Membership of a node id in the graph. -/
def hasNode (g : Graph) (n : Nat) : Bool := g.nodes.any (fun p => p.1 == n)

/-- `graph.has_edge(u, v)`: some edge from `u` to `v` exists. -/
def hasEdge (g : Graph) (u v : Nat) : Bool :=
  g.edges.any (fun e => e.1 == u && e.2.1 == v)

/-- `graph.get_edge_data(u, v)[0]`: the data of the key-0 edge of the pair
`(u, v)` — in this embedding the first `(u, v)` entry of the edge list —
or `none` when the pair has no edge (Python's `get_edge_data` returns
`None` there, and `None[0]` raises the `TypeError` that `merge_edges`
catches). -/
def firstEdgeData (g : Graph) (u v : Nat) : Option EdgeData :=
  (g.edges.find? (fun e => e.1 == u && e.2.1 == v)).map (fun e => e.2.2)

/-- `(graph.nodes[n]["x"], graph.nodes[n]["y"])`.  Callers inside
`simplify_graph` only query live nodes; the default is never reached on
well-formed calls. -/
def nodeXY (g : Graph) (n : Nat) : Int × Int :=
  ((g.nodes.find? (fun p => p.1 == n)).map (fun p => (p.2.1, p.2.2))).getD (0, 0)

/-- Distinct node ids keeping first occurrences, helper loop. -/
def uniqueFirstGo : List Nat → List Nat → List Nat
  | _, [] => []
  | seen, x :: xs =>
    if seen.contains x then uniqueFirstGo seen xs
    else x :: uniqueFirstGo (seen ++ [x]) xs

/-- Distinct node ids of a list, keeping first occurrences (the iteration
order of a networkx adjacency dict is first-insertion order). -/
def uniqueFirst (l : List Nat) : List Nat := uniqueFirstGo [] l

/-- `list(graph.predecessors(n))`: distinct sources of edges into `n`, in
first-edge-insertion order. -/
def predecessors (g : Graph) (n : Nat) : List Nat :=
  uniqueFirst ((g.edges.filter (fun e => e.2.1 == n)).map (fun e => e.1))

/-- `list(graph.successors(n))`: distinct targets of edges out of `n`, in
first-edge-insertion order. -/
def successors (g : Graph) (n : Nat) : List Nat :=
  uniqueFirst ((g.edges.filter (fun e => e.1 == n)).map (fun e => e.2.1))

/-- `graph.in_degree(n)`: number of incoming edges counted with
multiplicity. -/
def inDegree (g : Graph) (n : Nat) : Nat :=
  (g.edges.filter (fun e => e.2.1 == n)).length

/-- `graph.out_degree(n)`: number of outgoing edges counted with
multiplicity. -/
def outDegree (g : Graph) (n : Nat) : Nat :=
  (g.edges.filter (fun e => e.1 == n)).length

/-- `graph.add_edge(u, v, ...)` on a MultiDiGraph: appends a new parallel
edge (fresh highest key).  Inside `simplify_graph` both endpoints are
always live nodes, so the node list is untouched. -/
def addEdge (g : Graph) (u v : Nat) (d : EdgeData) : Graph :=
  { g with edges := g.edges ++ [(u, v, d)] }

/-- `graph.remove_node(n)`: removes the node and every incident edge. -/
def removeNode (g : Graph) (n : Nat) : Graph :=
  { nodes := g.nodes.filter (fun p => p.1 != n),
    edges := g.edges.filter (fun e => e.1 != n && e.2.1 != n) }

/-- Whether the first character list starts the second. -/
def charsLead : List Char → List Char → Bool
  | [], _ => true
  | _ :: _, [] => false
  | a :: as, b :: bs => a == b && charsLead as bs

/-- Whether the first character list occurs contiguously in the second. -/
def charsOccur : List Char → List Char → Bool
  | a, [] => a.isEmpty
  | a, b :: bs => charsLead a (b :: bs) || charsOccur a bs

/-- Python substring test `a in b` on strings (case-sensitive, exact
containment). -/
def pySubstr (a b : String) : Bool := charsOccur a.data b.data

/-- Python `list.index(a)`: index of the first occurrence. -/
def pyIndex {α : Type} [DecidableEq α] (a : α) : List α → Nat
  | [] => 0
  | x :: xs => if x = a then 0 else pyIndex a xs + 1

/-- Python slice `l[i:j]`: elements from index `i` up to, and excluding,
index `j`. -/
def pySlice {α : Type} (l : List α) (i j : Nat) : List α := (l.take j).drop i

/-- `data.setdefault("lanes", 1)`: an absent lane count becomes `1`, a
present one is kept; the edge dictionary is mutated in place. -/
def setdefaultLanes (e : EdgeData) : EdgeData := { e with lanes := some (e.lanes.getD 1) }

/-- Applies `f` to the data of the first `(u, v)` edge of the list (the
networkx key-0 edge, whose dictionary Python mutates in place). -/
def updEdgesFirst : List (Nat × Nat × EdgeData) → Nat → Nat → (EdgeData → EdgeData) →
    List (Nat × Nat × EdgeData)
  | [], _, _, _ => []
  | e :: es, u, v, f =>
    if e.1 == u && e.2.1 == v then (e.1, e.2.1, f e.2.2) :: es
    else e :: updEdgesFirst es u v f

/-- Graph-level wrapper of `updEdgesFirst`. -/
def updFirstEdgeData (g : Graph) (u v : Nat) (f : EdgeData → EdgeData) : Graph :=
  { g with edges := updEdgesFirst g.edges u v f }

/-- Modelled from the spec: the geometry stitching done through the external
shapely library (`data_u["geometry"].union(data_v["geometry"])`, then
`linemerge`, then coordinate extraction, lines 86–100 of the source).  For
two polylines sharing an endpoint the union merges into the single
concatenated polyline; otherwise the result stays a MultiLineString and the
source concatenates the coordinate lists of its pieces.  (The finer shapely
behaviour on crossing or overlapping polylines is outside the spec and is
not exercised by any claim.) -/
def stitch (a b : List (Int × Int)) : List (Int × Int) :=
  if a ≠ [] ∧ a.getLast? = b.head? then a ++ b.tail
  else if b ≠ [] ∧ b.getLast? = a.head? then b ++ a.tail
  else a ++ b

/-- The merge decision of `merge_edges` after both edge dictionaries were
fetched and their lane defaults set: name-containment and lane-equality
check, geometry stitching, endpoint membership check, and the Python
half-open slice from the first occurrence of `u`'s coordinate to the first
occurrence of `v`'s coordinate (source lines 76–112). -/
def mergeDecision (graph : Graph) (data_u data_v : EdgeData)
    (previous_node successive_node : Nat) : Option EdgeData :=
  if ¬ (pySubstr data_u.name data_v.name = true ∨ pySubstr data_v.name data_u.name = true)
      ∨ data_u.lanes ≠ data_v.lanes then none
  else
    let coords := stitch data_u.geometry data_v.geometry
    let u_coords := nodeXY graph previous_node
    let v_coords := nodeXY graph successive_node
    if u_coords ∉ coords ∨ v_coords ∉ coords then none
    else
      some { data_u with
             length := data_u.length + data_v.length,
             lanes := data_u.lanes,
             geometry := pySlice coords (pyIndex u_coords coords) (pyIndex v_coords coords) }

/-- `merge_edges(graph, previous_node, successive_node, node)` (source lines
49–119).  Returns the merged edge data, or `none` for every skip (including
the caught `TypeError` when one of the two edges is missing), together with
the graph as left behind by the call: `data_u.setdefault("lanes", 1)` and
`data_v.setdefault("lanes", 1)` mutate the two inspected edge dictionaries
in place, and those mutations survive even when the merge is declined. -/
def merge_edges (graph : Graph) (previous_node successive_node node : Nat) :
    Option EdgeData × Graph :=
  match firstEdgeData graph previous_node node with
  | none => (none, graph)
  | some data_u =>
    match firstEdgeData graph node successive_node with
    | none => (none, graph)
    | some data_v =>
      let data_u := setdefaultLanes data_u
      let data_v := setdefaultLanes data_v
      let graph := updFirstEdgeData
        (updFirstEdgeData graph previous_node node setdefaultLanes)
        node successive_node setdefaultLanes
      (mergeDecision graph data_u data_v previous_node successive_node, graph)

/-- The merge-and-rewrite block of the `simplify_graph` loop body for one
eligible node (source lines 153–178): attempt `merge_edges` in both
directions on the live graph (the first attempt's lane-default mutations
are visible to the second), and if at least one direction merged, add the
new edge(s) — storing only `length`, `name` and `geometry`, exactly the
keyword arguments of the `graph.add_edge` calls — and remove the node. -/
def attemptBothMerges (g : Graph) (u v node : Nat) : Graph :=
  let r1 := merge_edges g u v node
  let r2 := merge_edges r1.2 v u node
  if r1.1.isNone && r2.1.isNone then r2.2
  else
    let g3 := match r1.1 with
      | some e => addEdge r2.2 u v
          { name := e.name, lanes := none, length := e.length, geometry := e.geometry }
      | none => r2.2
    let g4 := match r2.1 with
      | some e => addEdge g3 v u
          { name := e.name, lanes := none, length := e.length, geometry := e.geometry }
      | none => g3
    removeNode g4 node

/-- One iteration of the `for node in graph.copy().nodes` body (source lines
141–178): skip unless the concatenated predecessor and successor lists have
exactly two entries `u, v`, the in- and out-degree agree and are at most 2,
and no direct `(u, v)` edge exists; otherwise attempt both merges. -/
def nodeStep (g : Graph) (node : Nat) : Graph :=
  match predecessors g node ++ successors g node with
  | [u, v] =>
    if inDegree g node ≠ outDegree g node ∨ 2 < inDegree g node then g
    else if hasEdge g u v then g
    else attemptBothMerges g u v node
  | _ => g

/-- The `for` loop over the snapshot of node ids taken at the start of a
pass, mutating the live graph. -/
def runNodes : Graph → List Nat → Graph
  | g, [] => g
  | g, n :: rest => runNodes (nodeStep g n) rest

/-- One full pass of the contraction loop: iterate the loop body over the
node-id list frozen by `graph.copy()` at the start of the pass. -/
def passImpl (g : Graph) : Graph := runNodes g (g.nodes.map (fun p => p.1))

/-- The `while previous_nodes != len(graph.nodes)` loop (source lines
137–178), with explicit fuel; `simplifyFix` supplies provably sufficient
fuel. -/
def simplifyWhile : Nat → Nat → Graph → Graph
  | 0, _, g => g
  | fuel + 1, previous_nodes, g =>
    if previous_nodes ≠ nodeCount g then simplifyWhile fuel (nodeCount g) (passImpl g)
    else g

/-- The contraction fixed-point loop: `previous_nodes` starts at `0` and the
loop runs passes until a pass leaves the node count unchanged. -/
def simplifyFix (g : Graph) : Graph := simplifyWhile (nodeCount g + 2) 0 g

/-- Nodes reachable from `n` ignoring edge direction, one expansion. -/
def undirNbrs (g : Graph) (n : Nat) : List Nat :=
  g.edges.filterMap (fun e =>
    if e.1 == n then some e.2.1 else if e.2.1 == n then some e.1 else none)

/-- One closure step of the undirected reachability computation. -/
def growSeen (g : Graph) (seen : List Nat) : List Nat :=
  uniqueFirst (seen ++ seen.flatMap (undirNbrs g))

/-- The weakly connected component containing `s` (fixed point of the
closure step, reached within `nodeCount` iterations). -/
def componentOf (g : Graph) (s : Nat) : List Nat :=
  (growSeen g)^[nodeCount g] [s]

/-- Components in the order `nx.weakly_connected_components` yields them:
scanning nodes in insertion order, emitting the component of each node not
already covered. -/
def componentsGo (g : Graph) : List Nat → List Nat → List (List Nat)
  | _, [] => []
  | assigned, n :: rest =>
    if assigned.contains n then componentsGo g assigned rest
    else componentOf g n :: componentsGo g (assigned ++ componentOf g n) rest

/-- `list(nx.weakly_connected_components(graph))`. -/
def componentsList (g : Graph) : List (List Nat) :=
  componentsGo g [] (g.nodes.map (fun p => p.1))

/-- Python `max(components, key=len)`: the first component of maximal size
(`max` keeps the earliest maximum); `none` models the `ValueError` that
`max` raises on an empty sequence. -/
def maxByLen : List (List Nat) → Option (List Nat)
  | [] => none
  | c :: cs =>
    match maxByLen cs with
    | none => some c
    | some m => if c.length < m.length then some m else some c

/-- Giant-component extraction (source lines 181–183): remove every node
outside the largest weakly connected component; removal cascades to the
incident edges. -/
def keepGiantComponent (g : Graph) : Except Unit Graph :=
  match maxByLen (componentsList g) with
  | none => .error ()
  | some giant =>
    .ok { nodes := g.nodes.filter (fun p => giant.contains p.1),
          edges := g.edges.filter (fun e => giant.contains e.1 && giant.contains e.2.1) }

/-- Self-loop removal (source line 185). -/
def removeSelfLoops (g : Graph) : Graph :=
  { g with edges := g.edges.filter (fun e => e.1 != e.2.1) }

/-- Lookup in the association list modelling the `seen_edges` dict. -/
def alistGet (k : Nat × Nat) :
    List ((Nat × Nat) × (Nat × Option (Nat × Nat))) → Option (Nat × Option (Nat × Nat))
  | [] => none
  | e :: es => if e.1 == k then some e.2 else alistGet k es

/-- In-place update (or append) in the `seen_edges` association list. -/
def alistSet (k : Nat × Nat) (v : Nat × Option (Nat × Nat)) :
    List ((Nat × Nat) × (Nat × Option (Nat × Nat))) →
    List ((Nat × Nat) × (Nat × Option (Nat × Nat)))
  | [] => [(k, v)]
  | e :: es => if e.1 == k then (k, v) :: es else e :: alistSet k v es

/-- The duplicate-scan loop of `simplify_graph` (source lines 187–206),
transcribed with its bug intact: the first edge of a pair is recorded in
`seen_edges` as `(lanes, None)`, so when a later parallel edge has strictly
more lanes the `None` placeholder itself is appended to `edges_to_remove`.
Produces the final `edges_to_remove` list, whose entries are `(u, v)` pairs
or the `None` placeholder. -/
def dedupGo : List (Nat × Nat × EdgeData) →
    List ((Nat × Nat) × (Nat × Option (Nat × Nat))) →
    List (Option (Nat × Nat)) → List (Option (Nat × Nat))
  | [], _, acc => acc
  | (u, v, data) :: rest, seen, acc =>
    let lanes := data.lanes.getD 0
    match alistGet (u, v) seen with
    | none => dedupGo rest (alistSet (u, v) (lanes, none) seen) acc
    | some (existing_lanes, existing_edge) =>
      if existing_lanes < lanes then
        dedupGo rest (alistSet (u, v) (lanes, some (u, v)) seen) (acc ++ [existing_edge])
      else
        dedupGo rest seen (acc ++ [some (u, v)])

/-- The `edges_to_remove` list computed by the duplicate scan. -/
def dedupEdgesToRemove (edges : List (Nat × Nat × EdgeData)) : List (Option (Nat × Nat)) :=
  dedupGo edges [] []

/-- Removes the first `(u, v)` edge of a list. -/
def eraseFirstUV : List (Nat × Nat × EdgeData) → Nat → Nat → List (Nat × Nat × EdgeData)
  | [], _, _ => []
  | e :: es, u, v =>
    if e.1 == u && e.2.1 == v then es else e :: eraseFirstUV es u v

/-- `graph.remove_edge(u, v)` with no key on a MultiDiGraph: `popitem` on
the key dictionary deletes the most recently inserted `(u, v)` edge; when
the pair has no edge the raised `NetworkXError` is swallowed by
`remove_edges_from`, a no-op here. -/
def removeLastUV (g : Graph) (u v : Nat) : Graph :=
  { g with edges := (eraseFirstUV g.edges.reverse u v).reverse }

/-- `graph.remove_edges_from(edges_to_remove)` (source line 208): entries
are unpacked with `e[:3]`, so a `None` entry raises an uncaught `TypeError`
(`NoneType` is not subscriptable), modelled as `.error ()`. -/
def remove_edges_from (g : Graph) : List (Option (Nat × Nat)) → Except Unit Graph
  | [] => .ok g
  | none :: _ => .error ()
  | some (u, v) :: rest => remove_edges_from (removeLastUV g u v) rest

/-- `graph_original.copy()`: networkx builds an independent graph with
copied adjacency structure and copied node/edge attribute dictionaries, so
later in-place mutations of the copy never reach the original.  At the
value level of this embedding the copy is the identity. -/
def graphCopy (g : Graph) : Graph := g

/-- `simplify_graph(graph_original)` (source lines 122–210): copy, run the
contraction loop to its fixed point, keep the giant weakly connected
component, drop self-loops, then run the duplicate-resolution step.
`.error ()` models the uncaught exceptions of the post-processing
(`max` on no components, `remove_edges_from` on a `None` entry). -/
def simplify_graph (graph_original : Graph) : Except Unit Graph :=
  let graph := graphCopy graph_original
  let graph := simplifyFix graph
  match keepGiantComponent graph with
  | .error e => .error e
  | .ok graph =>
    let graph := removeSelfLoops graph
    remove_edges_from graph (dedupEdgesToRemove graph.edges)

/-- The caller's view of one `simplify_graph` call: the binding passed as
`graph_original` and the returned graph. -/
structure SimplifyCall where
  input : Graph
  output : Except Unit Graph

/-- Calling `simplify_graph`: the function reads `graph_original` only to
copy it, so the caller's binding is returned alongside the output
unchanged. -/
def simplify_graph_call (g : Graph) : SimplifyCall :=
  { input := g, output := simplify_graph g }

/-- The set of distinct neighbors of a node — the union of its predecessors
and successors — as a duplicate-free list. -/
def distinctNeighbors (g : Graph) (n : Nat) : List Nat :=
  uniqueFirst (predecessors g n ++ successors g n)

/-- The eligibility guard of the loop body exactly as the implementation
checks it, factored out of `nodeStep`. -/
def codeEligiblePair (g : Graph) (node : Nat) : Option (Nat × Nat) :=
  match predecessors g node ++ successors g node with
  | [u, v] =>
    if inDegree g node ≠ outDegree g node ∨ 2 < inDegree g node then none
    else if hasEdge g u v then none
    else some (u, v)
  | _ => none

/-- One step of the sequential live-graph pass semantics: test the node
against the current graph and, when eligible, immediately attempt and apply
both merges. -/
def seqApply (g : Graph) (node : Nat) : Graph :=
  match codeEligiblePair g node with
  | some (u, v) => attemptBothMerges g u v node
  | none => g

/-- The sequential pass semantics: fold the per-node step over the node-id
list frozen at the start of the pass, threading the mutated graph. -/
def seqPass (g : Graph) : Graph := (g.nodes.map (fun p => p.1)).foldl seqApply g

/-- Modelled from the spec: the eligibility predicate of §4.3, evaluated on
a frozen graph — the set of distinct neighbors has exactly two elements
`u, v`, in- and out-degree agree and are at most 2, and no direct `(u, v)`
edge exists. -/
def specEligiblePair (g : Graph) (n : Nat) : Option (Nat × Nat) :=
  match distinctNeighbors g n with
  | [u, v] =>
    if inDegree g n = outDegree g n ∧ inDegree g n ≤ 2 ∧ hasEdge g u v = false
    then some (u, v) else none
  | _ => none

/-- Adds a staged edge, if one was staged. -/
def addEdgeOpt (h : Graph) : Option (Nat × Nat × EdgeData) → Graph
  | some (u, v, e) => addEdge h u v e
  | none => h

/-- Modelled from the spec: one snapshot-then-batch-apply pass of §4.3 —
every node's eligibility and both `tryMerge` attempts are evaluated against
the frozen pass-start graph, the resulting edge insertions and node
removals are staged, and the whole batch is applied at the end of the pass
(insertions first, then node removals, which cascade to incident edges). -/
def passSpecBatch (g : Graph) : Graph :=
  let staged := (g.nodes.map (fun p => p.1)).filterMap (fun n =>
    match specEligiblePair g n with
    | some (u, v) =>
      let euv := (merge_edges g u v n).1
      let evu := (merge_edges g v u n).1
      if euv.isNone && evu.isNone then none
      else some (n, euv.map (fun e => (u, v, e)), evu.map (fun e => (v, u, e)))
    | none => none)
  let withIns := staged.foldl (fun h s => addEdgeOpt (addEdgeOpt h s.2.1) s.2.2) g
  staged.foldl (fun h s => removeNode h s.1) withIns

/-- Whether the loop body, run on `g` at `node`, ends in the branch that
removes the node: the node is live, the eligibility guard passes, and at
least one of the two merge attempts succeeds. -/
def stepRemoves (g : Graph) (node : Nat) : Bool :=
  hasNode g node &&
  match predecessors g node ++ successors g node with
  | [u, v] =>
    decide (inDegree g node = outDegree g node) && decide (inDegree g node ≤ 2) &&
    !hasEdge g u v &&
    !((merge_edges g u v node).1.isNone
        && (merge_edges (merge_edges g u v node).2 v u node).1.isNone)
  | _ => false

/-- A pass performs at least one contraction: some node of the pass-start
snapshot reaches the removal branch when its turn comes. -/
def passContracts (g : Graph) : Prop :=
  ∃ l₁ n l₂, g.nodes.map (fun p => p.1) = l₁ ++ n :: l₂ ∧
    stepRemoves (runNodes g l₁) n = true

/-- How one edge entry may relate to its post-merge-attempt counterpart:
source, target, name, length and geometry are identical, and the lane count
is either identical or was absent and defaulted to `1`. -/
def laneDefaultRel (a b : Nat × Nat × EdgeData) : Prop :=
  a.1 = b.1 ∧ a.2.1 = b.2.1 ∧ a.2.2.name = b.2.2.name ∧
  a.2.2.length = b.2.2.length ∧ a.2.2.geometry = b.2.2.geometry ∧
  (a.2.2.lanes = b.2.2.lanes ∨ (a.2.2.lanes = none ∧ b.2.2.lanes = some 1))

/-- Edge data of the first segment of the scenario-A chain. -/
def edMainA : EdgeData :=
  { name := "Main St", lanes := some 1, length := 10, geometry := [(0, 0), (1, 0)] }

/-- Edge data of the second segment of the scenario-A chain. -/
def edMainB : EdgeData :=
  { name := "Main St", lanes := some 1, length := 32, geometry := [(1, 0), (2, 0)] }

/-- Scenario A: a one-way three-node chain `1 → 2 → 3`, both segments named
"Main St" with one lane. -/
def gA : Graph :=
  { nodes := [(1, 0, 0), (2, 1, 0), (3, 2, 0)],
    edges := [(1, 2, edMainA), (2, 3, edMainB)] }

/-- The graph `simplify_graph` returns on scenario A. -/
def gAResult : Graph :=
  { nodes := [(1, 0, 0), (3, 2, 0)],
    edges := [(1, 3,
      { name := "Main St", lanes := none, length := 42, geometry := [(0, 0), (1, 0)] })] }

/-- The edge-attribute dictionary `merge_edges(gA, 1, 3, 2)` returns on
scenario A. -/
def eAmerged : EdgeData :=
  { name := "Main St", lanes := some 1, length := 42, geometry := [(0, 0), (1, 0)] }

/-- A two-way pass-through node: node 2 sits on a two-way street between
nodes 1 and 3, so it has exactly two distinct neighbors and in-degree =
out-degree = 2, and the forward pair `1 → 2 → 3` is mergeable. -/
def gC2 : Graph :=
  { nodes := [(1, 0, 0), (2, 1, 0), (3, 2, 0)],
    edges :=
      [(1, 2, { name := "Main", lanes := some 1, length := 1, geometry := [(0, 0), (1, 0)] }),
       (2, 1, { name := "Back1", lanes := some 1, length := 1, geometry := [(1, 0), (0, 0)] }),
       (2, 3, { name := "Main", lanes := some 1, length := 1, geometry := [(1, 0), (2, 0)] }),
       (3, 2, { name := "Back3", lanes := some 1, length := 1, geometry := [(2, 0), (1, 0)] })] }

/-- Scenario C: the chain `1 → 2 → 3` whose segment names "Main St" and
"Side St" have no substring relation. -/
def gC9 : Graph :=
  { nodes := [(1, 0, 0), (2, 1, 0), (3, 2, 0)],
    edges :=
      [(1, 2, { name := "Main St", lanes := some 1, length := 5, geometry := [(0, 0), (1, 0)] }),
       (2, 3, { name := "Side St", lanes := some 1, length := 7, geometry := [(1, 0), (2, 0)] })] }

/-- A chain `1 → 2 → 3` whose segments lack a `lanes` attribute and carry
unrelated names, so the merge attempt is declined after the lane defaults
were written. -/
def g7 : Graph :=
  { nodes := [(1, 0, 0), (2, 1, 0), (3, 2, 0)],
    edges :=
      [(1, 2, { name := "Aaa", lanes := none, length := 1, geometry := [(0, 0), (1, 0)] }),
       (2, 3, { name := "Bbb", lanes := none, length := 1, geometry := [(1, 0), (2, 0)] })] }

/-- Scenario E: two parallel edges `(1, 2)`, the key-0 edge with one lane
and the key-1 edge with two lanes. -/
def gE : Graph :=
  { nodes := [(1, 0, 0), (2, 1, 0)],
    edges :=
      [(1, 2, { name := "P", lanes := some 1, length := 1, geometry := [(0, 0), (1, 0)] }),
       (1, 2, { name := "P", lanes := some 2, length := 1, geometry := [(0, 0), (1, 0)] })] }

/-- A one-way four-node chain `1 → 2 → 3 → 4` of "Main St" segments, on
which the live-graph pass and the snapshot-then-batch pass disagree. -/
def gChain4 : Graph :=
  { nodes := [(1, 0, 0), (2, 1, 0), (3, 2, 0), (4, 3, 0)],
    edges :=
      [(1, 2, { name := "Main St", lanes := some 1, length := 1, geometry := [(0, 0), (1, 0)] }),
       (2, 3, { name := "Main St", lanes := some 1, length := 1, geometry := [(1, 0), (2, 0)] }),
       (3, 4, { name := "Main St", lanes := some 1, length := 1, geometry := [(2, 0), (3, 0)] })] }

/-! Helper lemmas shared by the claim theorems. -/

theorem setdefaultLanes_name (e : EdgeData) : (setdefaultLanes e).name = e.name := rfl

theorem setdefaultLanes_length (e : EdgeData) : (setdefaultLanes e).length = e.length := rfl

theorem setdefaultLanes_geometry (e : EdgeData) : (setdefaultLanes e).geometry = e.geometry := rfl

theorem setdefaultLanes_lanes (e : EdgeData) :
    (setdefaultLanes e).lanes = some (e.lanes.getD 1) := rfl

theorem updFirstEdgeData_nodes (g : Graph) (u v : Nat) (f : EdgeData → EdgeData) :
    (updFirstEdgeData g u v f).nodes = g.nodes := rfl

theorem nodeXY_updFirstEdgeData (g : Graph) (u v : Nat) (f : EdgeData → EdgeData) (x : Nat) :
    nodeXY (updFirstEdgeData g u v f) x = nodeXY g x := rfl

theorem merge_edges_snd_nodes (g : Graph) (p s n : Nat) :
    ((merge_edges g p s n).2).nodes = g.nodes := by
  unfold merge_edges
  cases firstEdgeData g p n with
  | none => rfl
  | some du => cases firstEdgeData g n s with
    | none => rfl
    | some dv => rfl

theorem updEdgesFirst_map_srcdst (l : List (Nat × Nat × EdgeData)) (u v : Nat)
    (f : EdgeData → EdgeData) :
    (updEdgesFirst l u v f).map (fun e => (e.1, e.2.1)) = l.map (fun e => (e.1, e.2.1)) := by
  induction l with
  | nil => rfl
  | cons e es ih =>
    unfold updEdgesFirst
    by_cases h : (e.1 == u && e.2.1 == v) = true
    · simp only [h, if_pos]
      simp only [List.map_cons]
    · simp only [h, if_neg, Bool.not_eq_true, List.map_cons, ih]

theorem nodeStep_eq_seqApply (g : Graph) (n : Nat) : nodeStep g n = seqApply g n := by
  unfold nodeStep seqApply codeEligiblePair
  rcases predecessors g n ++ successors g n with _ | ⟨a, _ | ⟨b, _ | ⟨c, l⟩⟩⟩
  · rfl
  · rfl
  · by_cases h1 : inDegree g n ≠ outDegree g n ∨ 2 < inDegree g n
    · simp only [h1, if_pos]
    · simp only [h1, if_neg, Bool.not_eq_true]
      by_cases h2 : hasEdge g a b = true
      · simp [h2]
      · simp [h2]
  · rfl

theorem runNodes_eq_foldl (l : List Nat) (g : Graph) :
    runNodes g l = l.foldl seqApply g := by
  induction l generalizing g with
  | nil => rfl
  | cons n rest ih =>
    unfold runNodes
    rw [List.foldl_cons, ih, nodeStep_eq_seqApply]

theorem length_filter_lt_of_mem {α : Type} {p : α → Bool} {l : List α} {x : α}
    (hx : x ∈ l) (hpx : p x = false) : (l.filter p).length < l.length := by
  induction l with
  | nil => cases hx
  | cons a t ih =>
    rcases List.mem_cons.mp hx with h | h
    · subst h
      rw [List.filter_cons, hpx]
      exact Nat.lt_succ_of_le (List.length_filter_le p t)
    · rw [List.filter_cons]
      cases hpa : p a
      · exact Nat.lt_succ_of_lt (ih h)
      · simpa using Nat.succ_lt_succ (ih h)

theorem addEdge_nodes (g : Graph) (u v : Nat) (d : EdgeData) :
    (addEdge g u v d).nodes = g.nodes := rfl

theorem hasNode_congr {g₁ g₂ : Graph} (h : g₁.nodes = g₂.nodes) (n : Nat) :
    hasNode g₁ n = hasNode g₂ n := by
  simp [hasNode, h]

theorem removeNode_count_le (g : Graph) (n : Nat) :
    nodeCount (removeNode g n) ≤ nodeCount g :=
  List.length_filter_le _ _

theorem removeNode_count_lt (g : Graph) (n : Nat) (h : hasNode g n = true) :
    nodeCount (removeNode g n) < nodeCount g := by
  obtain ⟨p, hp, hpn⟩ := List.any_eq_true.mp h
  refine length_filter_lt_of_mem hp ?_
  simp [bne, hpn]

theorem attemptBothMerges_count_le (g : Graph) (u v n : Nat) :
    nodeCount (attemptBothMerges g u v n) ≤ nodeCount g := by
  have hr2 : ((merge_edges (merge_edges g u v n).2 v u n).2).nodes = g.nodes := by
    rw [merge_edges_snd_nodes, merge_edges_snd_nodes]
  unfold attemptBothMerges
  by_cases h : ((merge_edges g u v n).1.isNone
      && (merge_edges (merge_edges g u v n).2 v u n).1.isNone) = true
  · simp only [h, if_pos]
    exact le_of_eq (congrArg List.length hr2)
  · simp only [h, if_neg, Bool.not_eq_true]
    have hg4 : (match (merge_edges (merge_edges g u v n).2 v u n).1 with
        | some e => addEdge
            (match (merge_edges g u v n).1 with
             | some e => addEdge (merge_edges (merge_edges g u v n).2 v u n).2 u v
                 { name := e.name, lanes := none, length := e.length, geometry := e.geometry }
             | none => (merge_edges (merge_edges g u v n).2 v u n).2) v u
            { name := e.name, lanes := none, length := e.length, geometry := e.geometry }
        | none =>
            (match (merge_edges g u v n).1 with
             | some e => addEdge (merge_edges (merge_edges g u v n).2 v u n).2 u v
                 { name := e.name, lanes := none, length := e.length, geometry := e.geometry }
             | none => (merge_edges (merge_edges g u v n).2 v u n).2)).nodes = g.nodes := by
      cases (merge_edges (merge_edges g u v n).2 v u n).1 <;>
        cases (merge_edges g u v n).1 <;> simpa [addEdge] using hr2
    calc nodeCount (removeNode _ n) ≤ _ := removeNode_count_le _ n
      _ = nodeCount g := congrArg List.length hg4

theorem nodeStep_count_le (g : Graph) (n : Nat) :
    nodeCount (nodeStep g n) ≤ nodeCount g := by
  unfold nodeStep
  rcases predecessors g n ++ successors g n with _ | ⟨a, _ | ⟨b, _ | ⟨c, l⟩⟩⟩
  · exact le_refl _
  · exact le_refl _
  · by_cases h1 : inDegree g n ≠ outDegree g n ∨ 2 < inDegree g n
    · simp only [h1, if_pos]
      exact le_refl _
    · simp only [h1, if_neg]
      by_cases h2 : hasEdge g a b = true
      · simp [h2]
      · simp only [h2, if_neg, Bool.not_eq_true]
        simpa [h2] using attemptBothMerges_count_le g a b n
  · exact le_refl _

theorem runNodes_count_le (l : List Nat) (g : Graph) :
    nodeCount (runNodes g l) ≤ nodeCount g := by
  induction l generalizing g with
  | nil => exact le_refl _
  | cons n rest ih => exact le_trans (ih (nodeStep g n)) (nodeStep_count_le g n)

theorem runNodes_append (l₁ l₂ : List Nat) (g : Graph) :
    runNodes g (l₁ ++ l₂) = runNodes (runNodes g l₁) l₂ := by
  induction l₁ generalizing g with
  | nil => rfl
  | cons n rest ih => simpa [runNodes] using ih (nodeStep g n)

theorem passImpl_count_le (g : Graph) : nodeCount (passImpl g) ≤ nodeCount g :=
  runNodes_count_le _ g

theorem nodeStep_eligible_eq (g : Graph) (node u v : Nat)
    (h0 : predecessors g node ++ successors g node = [u, v])
    (h1 : inDegree g node = outDegree g node) (h2 : inDegree g node ≤ 2)
    (h3 : hasEdge g u v = false) :
    nodeStep g node = attemptBothMerges g u v node := by
  unfold nodeStep
  simp only [h0]
  rw [if_neg ?_]
  · rw [if_neg ?_]
    simp [h3]
  · rintro (ha | hb)
    · exact ha h1
    · omega

theorem removeNode_count_lt_of_nodes {G g : Graph} {n : Nat}
    (hG : G.nodes = g.nodes) (hnode : hasNode g n = true) :
    nodeCount (removeNode G n) < nodeCount g := by
  calc nodeCount (removeNode G n) < nodeCount G :=
        removeNode_count_lt G n (by rw [hasNode_congr hG]; exact hnode)
    _ = nodeCount g := congrArg List.length hG

theorem attemptBothMerges_count_lt (g : Graph) (u v n : Nat)
    (hnode : hasNode g n = true)
    (hsome : ((merge_edges g u v n).1.isNone
        && (merge_edges (merge_edges g u v n).2 v u n).1.isNone) = false) :
    nodeCount (attemptBothMerges g u v n) < nodeCount g := by
  have hr2 : ((merge_edges (merge_edges g u v n).2 v u n).2).nodes = g.nodes := by
    rw [merge_edges_snd_nodes, merge_edges_snd_nodes]
  unfold attemptBothMerges
  simp only [hsome, Bool.false_eq_true, if_false]
  rcases hA : (merge_edges g u v n).1 with _ | e1 <;>
    rcases hB : (merge_edges (merge_edges g u v n).2 v u n).1 with _ | e2 <;>
      simp only [hA, hB] <;>
        exact removeNode_count_lt_of_nodes (by simp [addEdge, hr2]) hnode

theorem stepRemoves_lt (g : Graph) (n : Nat) (h : stepRemoves g n = true) :
    nodeCount (nodeStep g n) < nodeCount g := by
  unfold stepRemoves at h
  rcases hm : predecessors g n ++ successors g n with _ | ⟨a, _ | ⟨b, _ | ⟨c, l⟩⟩⟩ <;>
    rw [hm] at h <;> simp only [Bool.and_eq_true, decide_eq_true_eq,
      Bool.not_eq_true', Bool.and_eq_false_iff] at h
  · exact absurd h.2 (by simp)
  · exact absurd h.2 (by simp)
  · obtain ⟨hnode, ⟨⟨hin, hle⟩, hedge⟩, hmerge⟩ := h
    rw [nodeStep_eligible_eq g n a b hm hin hle hedge]
    exact attemptBothMerges_count_lt g a b n hnode (Bool.and_eq_false_iff.mpr hmerge)
  · exact absurd h.2 (by simp)

theorem passContracts_count_lt (g : Graph) (h : passContracts g) :
    nodeCount (passImpl g) < nodeCount g := by
  obtain ⟨l₁, n, l₂, hsnap, hrem⟩ := h
  unfold passImpl
  rw [hsnap, runNodes_append]
  calc nodeCount (runNodes (runNodes g l₁) (n :: l₂))
      = nodeCount (runNodes (nodeStep (runNodes g l₁) n) l₂) := rfl
    _ ≤ nodeCount (nodeStep (runNodes g l₁) n) := runNodes_count_le _ _
    _ < nodeCount (runNodes g l₁) := stepRemoves_lt _ n hrem
    _ ≤ nodeCount g := runNodes_count_le _ _

theorem simplifyWhile_eq_self (fuel prev : Nat) (g : Graph) (h : prev = nodeCount g) :
    simplifyWhile fuel prev g = g := by
  cases fuel with
  | zero => rfl
  | succ f =>
    unfold simplifyWhile
    rw [if_neg]
    simp [h]

theorem simplifyWhile_iterate :
    ∀ fuel (g : Graph) (prev : Nat), nodeCount g + 1 ≤ fuel →
      ∃ k, k ≤ nodeCount g + 1 ∧ simplifyWhile fuel prev g = passImpl^[k] g := by
  intro fuel
  induction fuel with
  | zero => intro g prev h; omega
  | succ f ih =>
    intro g prev h
    by_cases hp : prev = nodeCount g
    · exact ⟨0, by omega, simplifyWhile_eq_self _ _ _ hp⟩
    · unfold simplifyWhile
      rw [if_pos hp]
      by_cases hc : nodeCount (passImpl g) = nodeCount g
      · refine ⟨1, by omega, ?_⟩
        rw [simplifyWhile_eq_self f (nodeCount g) (passImpl g) hc.symm]
        simp
      · have hlt : nodeCount (passImpl g) < nodeCount g :=
          lt_of_le_of_ne (passImpl_count_le g) hc
        obtain ⟨k, hk, heq⟩ := ih (passImpl g) (nodeCount g) (by omega)
        refine ⟨k + 1, by omega, ?_⟩
        rw [heq, Function.iterate_succ_apply]

theorem simplifyFix_halts (g : Graph) (h : nodeCount (passImpl g) = nodeCount g) :
    simplifyFix g = passImpl g := by
  unfold simplifyFix
  by_cases h0 : nodeCount g = 0
  · have hnil : g.nodes = [] := List.length_eq_zero.mp h0
    have hpass : passImpl g = g := by
      unfold passImpl
      rw [hnil]
      rfl
    rw [simplifyWhile_eq_self _ _ _ h0.symm, hpass]
  · unfold simplifyWhile
    rw [if_pos (by omega)]
    exact simplifyWhile_eq_self _ _ _ h.symm

theorem laneDefaultRel_refl (a : Nat × Nat × EdgeData) : laneDefaultRel a a :=
  ⟨rfl, rfl, rfl, rfl, rfl, Or.inl rfl⟩

theorem forall₂_laneDefaultRel_refl : ∀ l, List.Forall₂ laneDefaultRel l l
  | [] => .nil
  | a :: l => .cons (laneDefaultRel_refl a) (forall₂_laneDefaultRel_refl l)

theorem laneDefaultRel_trans {a b c : Nat × Nat × EdgeData}
    (h₁ : laneDefaultRel a b) (h₂ : laneDefaultRel b c) : laneDefaultRel a c := by
  obtain ⟨e₁, e₂, e₃, e₄, e₅, hl⟩ := h₁
  obtain ⟨f₁, f₂, f₃, f₄, f₅, hl'⟩ := h₂
  refine ⟨e₁.trans f₁, e₂.trans f₂, e₃.trans f₃, e₄.trans f₄, e₅.trans f₅, ?_⟩
  rcases hl with h | ⟨hn, h1⟩
  · rcases hl' with h' | ⟨hn', h1'⟩
    · exact Or.inl (h.trans h')
    · exact Or.inr ⟨h.trans hn', h1'⟩
  · rcases hl' with h' | ⟨hn', h1'⟩
    · exact Or.inr ⟨hn, h'.symm.trans h1⟩
    · rw [h1] at hn'
      cases hn'

theorem forall₂_laneDefaultRel_trans :
    ∀ {l₁ l₂ l₃ : List (Nat × Nat × EdgeData)}, List.Forall₂ laneDefaultRel l₁ l₂ →
      List.Forall₂ laneDefaultRel l₂ l₃ → List.Forall₂ laneDefaultRel l₁ l₃ := by
  intro l₁ l₂ l₃ h₁
  induction h₁ generalizing l₃ with
  | nil => intro h₂; cases h₂; exact .nil
  | cons hab h ih =>
    intro h₂
    cases h₂ with
    | cons hbc h' => exact .cons (laneDefaultRel_trans hab hbc) (ih h')

theorem updEdgesFirst_laneDefaultRel (l : List (Nat × Nat × EdgeData)) (u v : Nat) :
    List.Forall₂ laneDefaultRel l (updEdgesFirst l u v setdefaultLanes) := by
  induction l with
  | nil => exact .nil
  | cons e es ih =>
    unfold updEdgesFirst
    by_cases h : (e.1 == u && e.2.1 == v) = true
    · simp only [h, if_pos]
      refine .cons ?_ (forall₂_laneDefaultRel_refl es)
      refine ⟨rfl, rfl, rfl, rfl, rfl, ?_⟩
      cases hl : e.2.2.lanes with
      | none => exact Or.inr ⟨rfl, by simp [setdefaultLanes, hl]⟩
      | some k => exact Or.inl (by simp [setdefaultLanes, hl])
    · simp only [h, if_neg, Bool.not_eq_true]
      exact .cons (laneDefaultRel_refl e) ih

theorem merge_edges_snd_laneDefaultRel (g : Graph) (p s n : Nat) :
    List.Forall₂ laneDefaultRel g.edges ((merge_edges g p s n).2).edges := by
  unfold merge_edges
  cases firstEdgeData g p n with
  | none => exact forall₂_laneDefaultRel_refl _
  | some du => cases firstEdgeData g n s with
    | none => exact forall₂_laneDefaultRel_refl _
    | some dv =>
      exact forall₂_laneDefaultRel_trans (updEdgesFirst_laneDefaultRel g.edges p n)
        (updEdgesFirst_laneDefaultRel _ n s)

theorem merge_edges_some_spec {g : Graph} {p s n : Nat} {du dv e : EdgeData}
    (h1 : firstEdgeData g p n = some du) (h2 : firstEdgeData g n s = some dv)
    (h3 : (merge_edges g p s n).1 = some e) :
    (pySubstr du.name dv.name = true ∨ pySubstr dv.name du.name = true) ∧
    du.lanes.getD 1 = dv.lanes.getD 1 ∧
    nodeXY g p ∈ stitch du.geometry dv.geometry ∧
    nodeXY g s ∈ stitch du.geometry dv.geometry ∧
    e = { name := du.name, lanes := some (du.lanes.getD 1),
          length := du.length + dv.length,
          geometry := pySlice (stitch du.geometry dv.geometry)
            (pyIndex (nodeXY g p) (stitch du.geometry dv.geometry))
            (pyIndex (nodeXY g s) (stitch du.geometry dv.geometry)) } := by
  simp only [merge_edges, h1, h2] at h3
  simp only [mergeDecision, nodeXY_updFirstEdgeData, setdefaultLanes_name,
    setdefaultLanes_geometry, setdefaultLanes_lanes] at h3
  split at h3
  · exact Option.noConfusion h3
  · rename_i hc1
    rw [not_or] at hc1
    obtain ⟨hname, hlanes⟩ := hc1
    rw [not_not] at hname
    rw [not_ne_iff] at hlanes
    have hlanes' : du.lanes.getD 1 = dv.lanes.getD 1 := Option.some.inj hlanes
    split at h3
    · exact Option.noConfusion h3
    · rename_i hc2
      rw [not_or] at hc2
      obtain ⟨hu, hv⟩ := hc2
      rw [not_not] at hu
      rw [not_not] at hv
      refine ⟨hname, hlanes', hu, hv, ?_⟩
      cases h3
      rfl

theorem pyIndex_lt_length {α : Type} [DecidableEq α] {a : α} :
    ∀ {l : List α}, a ∈ l → pyIndex a l < l.length := by
  intro l h
  induction l with
  | nil => cases h
  | cons x xs ih =>
    unfold pyIndex
    by_cases hx : x = a
    · simp [hx]
    · rw [if_neg hx]
      have hmem : a ∈ xs := by
        rcases List.mem_cons.mp h with h' | h'
        · exact absurd h'.symm hx
        · exact h'
      simpa [Nat.succ_lt_succ_iff] using ih hmem

theorem getElem?_pyIndex {α : Type} [DecidableEq α] {a : α} :
    ∀ {l : List α}, a ∈ l → l[pyIndex a l]? = some a := by
  intro l h
  induction l with
  | nil => cases h
  | cons x xs ih =>
    unfold pyIndex
    by_cases hx : x = a
    · simp [hx]
    · rw [if_neg hx]
      have hmem : a ∈ xs := by
        rcases List.mem_cons.mp h with h' | h'
        · exact absurd h'.symm hx
        · exact h'
      simpa using ih hmem

theorem pySlice_head? {α : Type} (l : List α) (i j : Nat) (hij : i < j) :
    (pySlice l i j).head? = l[i]? := by
  unfold pySlice
  rw [List.head?_drop]
  exact List.getElem?_take_of_lt hij

theorem pySlice_getLast? {α : Type} (l : List α) (i j : Nat) (hij : i < j)
    (hjl : j ≤ l.length) :
    (pySlice l i j).getLast? = l[j - 1]? := by
  unfold pySlice
  rw [List.getLast?_drop, List.length_take, if_neg (by omega), List.getLast?_take,
    if_neg (by omega)]
  have hj1 : j - 1 < l.length := by omega
  rw [List.getElem?_eq_getElem hj1]
  simp

theorem merge_edges_snd_srcdst (g : Graph) (p s n : Nat) :
    ((merge_edges g p s n).2).edges.map (fun e => (e.1, e.2.1)) =
      g.edges.map (fun e => (e.1, e.2.1)) := by
  unfold merge_edges
  cases firstEdgeData g p n with
  | none => rfl
  | some du => cases firstEdgeData g n s with
    | none => rfl
    | some dv =>
      show (updEdgesFirst (updEdgesFirst g.edges p n setdefaultLanes) n s
          setdefaultLanes).map (fun e => (e.1, e.2.1)) = _
      rw [updEdgesFirst_map_srcdst, updEdgesFirst_map_srcdst]

theorem hasEdge_eq_of_srcdst {g₁ g₂ : Graph}
    (h : g₁.edges.map (fun e => (e.1, e.2.1)) = g₂.edges.map (fun e => (e.1, e.2.1)))
    (u v : Nat) : hasEdge g₁ u v = hasEdge g₂ u v := by
  unfold hasEdge
  have key : ∀ l : List (Nat × Nat × EdgeData),
      l.any (fun e => e.1 == u && e.2.1 == v) =
        (l.map (fun e => (e.1, e.2.1))).any (fun q => q.1 == u && q.2 == v) := by
    intro l
    induction l with
    | nil => rfl
    | cons a t ih => simp [List.any_cons, ih]
  rw [key, key, h]

theorem find?_uv_filter_append
    (l : List (Nat × Nat × EdgeData)) (u v node : Nat) (E : EdgeData)
    (tail : List (Nat × Nat × EdgeData))
    (hno : l.any (fun e => e.1 == u && e.2.1 == v) = false)
    (hu : u ≠ node) (hv : v ≠ node) :
    ((l ++ (u, v, E) :: tail).filter (fun e => e.1 != node && e.2.1 != node)).find?
      (fun e => e.1 == u && e.2.1 == v) = some (u, v, E) := by
  rw [List.filter_append, List.find?_append]
  have h1 : ((l.filter (fun e => e.1 != node && e.2.1 != node)).find?
      (fun e => e.1 == u && e.2.1 == v)) = none := by
    rw [List.find?_eq_none]
    intro x hx
    have hxl : x ∈ l := (List.mem_filter.mp hx).1
    have := List.any_eq_false.mp hno x hxl
    simpa using this
  rw [h1]
  rw [List.filter_cons, if_pos (by simp [hu, hv])]
  simp

/-! The claim theorems. -/

/-- C1, counterexample.  The claim says every successfully merged edge's
geometry ends exactly at the target's coordinate.  On scenario A the merge
`merge_edges(gA, 1, 3, 2)` succeeds, node 3's coordinate is `(2, 0)`, yet
the returned geometry ends at `(1, 0)`: the Python slice
`coords[coords.index(u):coords.index(v)]` excludes the endpoint at `v`. -/
theorem spec_c1_cex :
    ((merge_edges gA 1 3 2).1).map (fun e => e.geometry.head?) = some (some (0, 0)) ∧
    ((merge_edges gA 1 3 2).1).map (fun e => e.geometry.getLast?) = some (some (1, 0)) ∧
    nodeXY gA 1 = (0, 0) ∧ nodeXY gA 3 = (2, 0) ∧
    some (some ((1 : Int), (0 : Int))) ≠ some (some ((2 : Int), (0 : Int))) := by
  decide

/-- C1, amended.  For every edge produced by a successful merge, the
geometry is the Python half-open slice of the stitched polyline from the
first occurrence of the source's coordinate up to, and excluding, the first
occurrence of the target's coordinate; when the source's coordinate occurs
before the target's, the geometry hence begins exactly at the source's
coordinate but ends at the stitched point immediately preceding the
target's coordinate, not at the target's coordinate itself. -/
theorem spec_c1_amended (g : Graph) (p s n : Nat) (du dv e : EdgeData)
    (h1 : firstEdgeData g p n = some du) (h2 : firstEdgeData g n s = some dv)
    (h3 : (merge_edges g p s n).1 = some e) :
    e.geometry = pySlice (stitch du.geometry dv.geometry)
      (pyIndex (nodeXY g p) (stitch du.geometry dv.geometry))
      (pyIndex (nodeXY g s) (stitch du.geometry dv.geometry)) ∧
    (pyIndex (nodeXY g p) (stitch du.geometry dv.geometry) <
        pyIndex (nodeXY g s) (stitch du.geometry dv.geometry) →
      e.geometry.head? = some (nodeXY g p) ∧
      e.geometry.getLast? = (stitch du.geometry dv.geometry)[pyIndex
        (nodeXY g s) (stitch du.geometry dv.geometry) - 1]?) := by
  obtain ⟨-, -, hu, hv, he⟩ := merge_edges_some_spec h1 h2 h3
  have hgeom : e.geometry = pySlice (stitch du.geometry dv.geometry)
      (pyIndex (nodeXY g p) (stitch du.geometry dv.geometry))
      (pyIndex (nodeXY g s) (stitch du.geometry dv.geometry)) := by
    rw [he]
  refine ⟨hgeom, fun hij => ⟨?_, ?_⟩⟩
  · rw [hgeom, pySlice_head? _ _ _ hij]
    exact getElem?_pyIndex hu
  · rw [hgeom, pySlice_getLast? _ _ _ hij (le_of_lt (pyIndex_lt_length hv))]

/-- C1, witness: the amended theorem applied to scenario A, where the slice
runs from index 0 to index 2 of the stitched polyline. -/
theorem spec_c1_witness :
    (merge_edges gA 1 3 2).1 = some eAmerged ∧
    eAmerged.geometry.head? = some (nodeXY gA 1) ∧
    eAmerged.geometry.getLast? = (stitch edMainA.geometry edMainB.geometry)[pyIndex
      (nodeXY gA 3) (stitch edMainA.geometry edMainB.geometry) - 1]? := by
  have h3 : (merge_edges gA 1 3 2).1 = some eAmerged := by decide
  have h := (spec_c1_amended gA 1 3 2 edMainA edMainB eAmerged (by decide) (by decide)
    h3).2 (by decide)
  exact ⟨h3, h.1, h.2⟩

/-- C2, counterexample.  At node 2 of `gC2` the claim's premises all hold —
the distinct-neighbor set is exactly `{1, 3}`, in-degree equals out-degree,
both are at most 2, and no direct edge `(1, 3)` exists — yet the loop body
skips the node without attempting any merge: the implementation tests
`len(list(predecessors) + list(successors)) == 2`, which is 4 for a two-way
pass-through node, not the size of the distinct-neighbor set. -/
theorem spec_c2_cex :
    distinctNeighbors gC2 2 = [1, 3] ∧
    inDegree gC2 2 = outDegree gC2 2 ∧ inDegree gC2 2 ≤ 2 ∧
    hasEdge gC2 1 3 = false ∧
    nodeStep gC2 2 = gC2 ∧
    nodeStep gC2 2 ≠ attemptBothMerges gC2 1 3 2 := by
  decide

/-- C2, amended.  The contraction engine treats `n` as eligible and attempts
the merge in both directions exactly when the concatenation of the
distinct-predecessor list and the distinct-successor list has exactly two
entries `u, v` (one distinct predecessor and one distinct successor, not a
two-element distinct-neighbor set), `inDegree(n) = outDegree(n)`,
`inDegree(n) ≤ 2`, and no direct edge `(u, v)` exists. -/
theorem spec_c2_amended (g : Graph) (node u v : Nat)
    (h0 : predecessors g node ++ successors g node = [u, v])
    (h1 : inDegree g node = outDegree g node) (h2 : inDegree g node ≤ 2)
    (h3 : hasEdge g u v = false) :
    nodeStep g node = attemptBothMerges g u v node :=
  nodeStep_eligible_eq g node u v h0 h1 h2 h3

/-- C2, witness: on scenario A the loop body at node 2 is exactly the
two-direction merge attempt. -/
theorem spec_c2_witness : nodeStep gA 2 = attemptBothMerges gA 1 3 2 :=
  spec_c2_amended gA 2 1 3 (by decide) (by decide) (by decide) (by decide)


theorem firstEdgeData_removeNode_of (G r : Graph) (u v node : Nat) (E : EdgeData)
    (tail : List (Nat × Nat × EdgeData))
    (hG : G.edges = r.edges ++ (u, v, E) :: tail)
    (hno : hasEdge r u v = false)
    (hu : u ≠ node) (hv : v ≠ node) :
    firstEdgeData (removeNode G node) u v = some E := by
  have hno' : r.edges.any (fun q => q.1 == u && q.2.1 == v) = false := hno
  simp only [firstEdgeData, removeNode, hG]
  rw [find?_uv_filter_append r.edges u v node E tail hno' hu hv]
  rfl

/-- C3, counterexample.  On scenario A the merge through node 2 succeeds and
the two merged edges share lane count 1, but the fused edge stored in the
graph carries no `lanes` attribute at all: `simplify_graph` calls
`graph.add_edge(u, v, length=..., name=..., geometry=...)` and drops the
`lanes` key that `merge_edges` computed. -/
theorem spec_c3_cex :
    (merge_edges gA 1 3 2).1 = some eAmerged ∧ eAmerged.lanes = some 1 ∧
    (firstEdgeData (nodeStep gA 2) 1 3).map (fun d => d.lanes) = some none ∧
    (firstEdgeData (nodeStep gA 2) 1 3).map (fun d => d.lanes) ≠ some (some 1) := by
  decide

/-- C3, amended.  When a merge through an eligible node succeeds, the edge
dictionary returned by `merge_edges` does carry `lanes` equal to the
(defaulted) shared lane count, but the fused edge stored in the graph
carries only `name`, `length` and `geometry` — its `lanes` attribute is
absent. -/
theorem spec_c3_amended (g : Graph) (node u v : Nat) (du dv e : EdgeData)
    (h0 : predecessors g node ++ successors g node = [u, v])
    (h1 : inDegree g node = outDegree g node) (h2 : inDegree g node ≤ 2)
    (h3 : hasEdge g u v = false)
    (h4 : firstEdgeData g u node = some du) (h5 : firstEdgeData g node v = some dv)
    (h6 : (merge_edges g u v node).1 = some e)
    (h7 : u ≠ node) (h8 : v ≠ node) :
    e.lanes = some (du.lanes.getD 1) ∧
    firstEdgeData (nodeStep g node) u v =
      some { name := e.name, lanes := none, length := e.length,
             geometry := e.geometry } := by
  obtain ⟨-, -, -, -, he⟩ := merge_edges_some_spec h4 h5 h6
  refine ⟨by rw [he], ?_⟩
  rw [nodeStep_eligible_eq g node u v h0 h1 h2 h3]
  unfold attemptBothMerges
  rw [if_neg (by simp [h6])]
  have hno : hasEdge ((merge_edges (merge_edges g u v node).2 v u node).2) u v = false := by
    rw [hasEdge_eq_of_srcdst (merge_edges_snd_srcdst _ v u node) u v,
      hasEdge_eq_of_srcdst (merge_edges_snd_srcdst g u v node) u v]
    exact h3
  rcases hr2 : (merge_edges (merge_edges g u v node).2 v u node).1 with _ | e2 <;>
    simp only [hr2, h6]
  · exact firstEdgeData_removeNode_of _ _ u v node _ [] rfl hno h7 h8
  · exact firstEdgeData_removeNode_of _ _ u v node _
      [(v, u, { name := e2.name, lanes := none, length := e2.length,
                geometry := e2.geometry })]
      (by simp [addEdge]) hno h7 h8

/-- C3, witness: the amended theorem applied to scenario A — the merge
result carries `lanes = 1` while the stored fused edge has no `lanes`. -/
theorem spec_c3_witness :
    eAmerged.lanes = some (edMainA.lanes.getD 1) ∧
    firstEdgeData (nodeStep gA 2) 1 3 =
      some { name := eAmerged.name, lanes := none, length := eAmerged.length,
             geometry := eAmerged.geometry } :=
  spec_c3_amended gA 2 1 3 edMainA edMainB eAmerged (by decide) (by decide)
    (by decide) (by decide) (by decide) (by decide) (by decide) (by decide) (by decide)

/-- C4, code bug.  The claim (and the source's own comment, "keep only the
one with the bigger lanes") says that of two parallel `(u, v)` edges with
lanes 1 and 2 only the lanes-2 edge survives the duplicate-resolution step.
On `gE` (lanes 1 at key 0, lanes 2 at key 1) the scan instead records the
first edge in `seen_edges` as `(lanes, None)`, appends that `None`
placeholder to `edges_to_remove`, and `remove_edges_from` then raises an
uncaught `TypeError` on it — the whole `simplify_graph` call crashes instead
of keeping the lanes-2 edge. -/
theorem spec_c4_bug :
    dedupEdgesToRemove gE.edges = [none] ∧
    remove_edges_from gE (dedupEdgesToRemove gE.edges) = .error () ∧
    simplify_graph gE = .error () := by
  decide

/-- C5, counterexample.  On the four-node one-way chain `gChain4` the
implementation's pass differs from the spec's snapshot-then-batch-apply
pass: the live pass contracts node 2, then re-evaluates node 3 against the
mutated graph and produces the single through edge `1 → 4`, while the
frozen-snapshot batch pass stages edges `(1, 3)` and `(2, 4)` whose
endpoints are then removed by the batch node removals, leaving no edge at
all. -/
theorem spec_c5_cex : passImpl gChain4 ≠ passSpecBatch gChain4 := by
  decide

/-- C5, amended.  Within each pass only the node iteration list is frozen
(by `graph.copy()`) at the start of the pass; eligibility of every node is
evaluated against the live graph, including all mutations made earlier in
the same pass, and each node's staged edge insertions and its removal are
applied immediately, before the next node is examined.  The per-pass
processing is therefore equivalent to a sequential fold of the per-node
eligibility-and-merge step over the frozen node list, not to
snapshot-then-batch-apply semantics. -/
theorem spec_c5_amended (g : Graph) : passImpl g = seqPass g := by
  unfold passImpl seqPass
  exact runNodes_eq_foldl _ g

/-- C6, confirmed.  The contraction loop's node count never increases
across a pass; it strictly decreases on any pass that performs at least one
contraction; the loop returns the pass result as soon as a pass leaves the
node count unchanged; and the whole loop is a finite iteration of passes —
at most `nodeCount + 1` of them — so it terminates on every finite input
graph (the fuel `nodeCount + 2` supplied by `simplifyFix` is provably
sufficient). -/
theorem spec_c6 (g : Graph) :
    nodeCount (passImpl g) ≤ nodeCount g ∧
    (passContracts g → nodeCount (passImpl g) < nodeCount g) ∧
    (nodeCount (passImpl g) = nodeCount g → simplifyFix g = passImpl g) ∧
    ∃ k, k ≤ nodeCount g + 1 ∧ simplifyFix g = passImpl^[k] g := by
  refine ⟨passImpl_count_le g, passContracts_count_lt g, simplifyFix_halts g, ?_⟩
  exact simplifyWhile_iterate (nodeCount g + 2) g 0 (by omega)

/-- C6, witness: on scenario A the pass contracts node 2 and the node count
strictly drops, and on scenario C (where no node is eligible to merge) the
loop halts right after the first pass. -/
theorem spec_c6_witness :
    nodeCount (passImpl gA) < nodeCount gA ∧ simplifyFix gC9 = passImpl gC9 :=
  ⟨(spec_c6 gA).2.1 ⟨[1], 2, [3], by decide, by decide⟩,
   (spec_c6 gC9).2.2.1 (by decide)⟩

/-- C7, counterexample.  `merge_edges(g7, 1, 3, 2)` declines the merge (the
names "Aaa" and "Bbb" have no substring relation), yet the graph is not left
unchanged: `data_u.setdefault("lanes", 1)` and `data_v.setdefault("lanes",
1)` already wrote a default lane count of 1 into both inspected edge
dictionaries, which previously had no `lanes` attribute. -/
theorem spec_c7_cex :
    (merge_edges g7 1 3 2).1 = none ∧ (merge_edges g7 1 3 2).2 ≠ g7 := by
  decide

/-- C7, amended.  Whenever `merge_edges` declines a merge, the node list is
unchanged and the edge list keeps its length and, entry by entry, its
source, target, name, length and geometry; the only possible mutation is
that an absent lane count on an inspected edge has been defaulted to 1. -/
theorem spec_c7_amended (g : Graph) (p s n : Nat)
    (h : (merge_edges g p s n).1 = none) :
    ((merge_edges g p s n).2).nodes = g.nodes ∧
    ((merge_edges g p s n).2).edges.length = g.edges.length ∧
    List.Forall₂ laneDefaultRel g.edges ((merge_edges g p s n).2).edges := by
  refine ⟨merge_edges_snd_nodes g p s n, ?_, merge_edges_snd_laneDefaultRel g p s n⟩
  exact ((merge_edges_snd_laneDefaultRel g p s n).length_eq).symm

/-- C7, witness: the amended theorem applied to the declined merge on `g7`. -/
theorem spec_c7_witness :
    (merge_edges g7 1 3 2).1 = none ∧
    ((merge_edges g7 1 3 2).2).nodes = g7.nodes ∧
    ((merge_edges g7 1 3 2).2).edges.length = g7.edges.length := by
  have h : (merge_edges g7 1 3 2).1 = none := by decide
  have ha := spec_c7_amended g7 1 3 2 h
  exact ⟨h, ha.1, ha.2.1⟩

/-- C8, confirmed.  A successful merge always returns an edge whose length
is the exact sum of the two merged edges' lengths, and on scenario A
(`1 → 2 → 3`, both segments "Main St" with one lane) `simplify_graph`
removes node 2 and returns the single edge `1 → 3` with length
`10 + 32 = 42`. -/
theorem spec_c8 :
    (∀ (g : Graph) (p s n : Nat) (du dv e : EdgeData),
        firstEdgeData g p n = some du → firstEdgeData g n s = some dv →
        (merge_edges g p s n).1 = some e → e.length = du.length + dv.length) ∧
    simplify_graph gA = .ok gAResult := by
  refine ⟨?_, by decide⟩
  intro g p s n du dv e h1 h2 h3
  obtain ⟨-, -, -, -, he⟩ := merge_edges_some_spec h1 h2 h3
  rw [he]

/-- C8, witness: the length part applied to the concrete scenario-A merge. -/
theorem spec_c8_witness :
    eAmerged.length = edMainA.length + edMainB.length ∧
    (merge_edges gA 1 3 2).1 = some eAmerged :=
  ⟨spec_c8.1 gA 1 3 2 edMainA edMainB eAmerged (by decide) (by decide) (by decide),
   by decide⟩

/-- C9, confirmed.  `merge_edges` accepts a pair of adjacent directed edges
only if one edge's name is a case-sensitive substring of the other
(checked before anything else together with lane equality), and on scenario
C ("Main St" vs "Side St", no substring relation either way) both direction
attempts are declined, the loop body leaves the graph unchanged, and
`simplify_graph` returns the graph with node 2 retained. -/
theorem spec_c9 :
    (∀ (g : Graph) (p s n : Nat) (du dv e : EdgeData),
        firstEdgeData g p n = some du → firstEdgeData g n s = some dv →
        (merge_edges g p s n).1 = some e →
        pySubstr du.name dv.name = true ∨ pySubstr dv.name du.name = true) ∧
    (merge_edges gC9 1 3 2).1 = none ∧ (merge_edges gC9 3 1 2).1 = none ∧
    nodeStep gC9 2 = gC9 ∧ simplify_graph gC9 = .ok gC9 := by
  refine ⟨?_, by decide, by decide, by decide, by decide⟩
  intro g p s n du dv e h1 h2 h3
  exact (merge_edges_some_spec h1 h2 h3).1

/-- C9, witness: the substring condition extracted from the successful
scenario-A merge, whose segment names are both "Main St". -/
theorem spec_c9_witness :
    pySubstr edMainA.name edMainB.name = true ∨
    pySubstr edMainB.name edMainA.name = true :=
  spec_c9.1 gA 1 3 2 edMainA edMainB eAmerged (by decide) (by decide) (by decide)

/-- C10, confirmed.  `simplify_graph` works on `graph_original.copy()` —
networkx's copy duplicates the adjacency structure and every node and edge
attribute dictionary, so the in-place `setdefault` mutations during merge
attempts hit only the copy — and returns a new graph.  In this value-level
embedding every mutation is threaded through the copied value, so the
caller's binding still holds the original graph after the call, even on
inputs such as scenario A where the returned graph differs from the
input. -/
theorem spec_c10 :
    (∀ g : Graph, (simplify_graph_call g).input = g) ∧
    (simplify_graph_call gA).input = gA ∧ simplify_graph gA ≠ .ok gA :=
  ⟨fun _ => rfl, rfl, by decide⟩
